import Mathlib

/-!
Shallow embedding of the assessment / answer-key / grading subsystem of
sistema-avaliacoes-backend. The authoritative source is src/src/server.js,
which contains two concatenated server variants: V1 (lines 1..835) and
V2 (lines 836..1435). Handlers that are identical in both variants are
embedded once.

Modelling conventions:
- MongoDB ObjectId values are modelled as Nat; each collection is a List
  kept in insertion (natural) order.
- A mongoose findOne with sort by createdAt descending is modelled as a
  scan selecting the element with the greatest createdAt (the earlier
  element is kept on ties); findOne without a sort returns the first
  matching document in natural order.
- JS undefined is modelled with Option; the JS strict-equality test
  keyMap.get(n) === a.answer compares two possibly-undefined values,
  which Option equality mirrors (none equals none).
- The JS Map constructor lets a later entry overwrite an earlier entry
  with the same key, so Map lookups are modelled as find? on the
  reversed entry list.
- mongoose create runs schema validation: a required String field
  rejects the empty string, an enum field rejects a value outside the
  enum but accepts a missing value, the unique index on User.email
  rejects a duplicate, and questionsCount has min 1 and max 50. Any such
  failure is caught by the catch branch of the handler and surfaces as
  the 500 response, modelled as a storageFailure outcome.
-/

namespace Avaliacoes

/-- The five multiple-choice letters accepted by the enums in server.js. -/
def letters : List String := ["A", "B", "C", "D", "E"]

/-- One item of an AnswerKey document (AnswerKeyItemSchema): questionNumber,
optional correctAnswer restricted to the letters enum, optional subject. -/
structure KeyItem where
  questionNumber : Int
  correctAnswer : Option String
  subject : Option String
deriving DecidableEq

/-- An AnswerKey document (AnswerKeySchema) with its timestamps createdAt. -/
structure AnswerKeyDoc where
  assessmentId : Nat
  answers : List KeyItem
  createdAt : Nat
deriving DecidableEq

/-- One student answer item (StudentAnswerItemSchema). In a request body any
of the fields may be absent, hence the Option types. -/
structure AnswerItem where
  questionNumber : Int
  answer : Option String
  isCorrect : Option Bool
  subject : Option String
deriving DecidableEq

/-- A StudentAnswer document (StudentAnswerSchema). -/
structure StudentAnswerDoc where
  assessmentId : Nat
  studentName : String
  answers : List AnswerItem
deriving DecidableEq

/-- One entry of the questions list of an assessment (QuestionRefSchema). -/
structure QuestionRef where
  number : Int
  subject : Option String
deriving DecidableEq

/-- An Assessment document (AssessmentSchema) with its timestamps createdAt. -/
structure AssessmentDoc where
  id : Nat
  name : String
  questionsCount : Int
  questions : List QuestionRef
  createdAt : Nat
deriving DecidableEq

/-- A Form document (FormSchema), the distribution link of the spec. -/
structure FormDoc where
  formId : String
  assessmentId : Nat
  title : String
  description : String
  requireName : Bool
deriving DecidableEq

/-- A User document (UserSchema). The bcrypt password hash is outside the
embedding (no claim depends on it); role is None for the V2 default null. -/
structure UserDoc where
  name : String
  email : String
  role : Option String
deriving DecidableEq

/-- A question-bank document (QuestionSchema), restricted to the fields the
from-bank builder consumes: the id, correctAnswer and subject. -/
structure BankQuestion where
  id : String
  correctAnswer : Option String
  subject : Option String
deriving DecidableEq

/-- The entry list of the JS Map built in server.js from keyDoc.answers:
pairs of questionNumber and correctAnswer. -/
def keyPairs (kd : AnswerKeyDoc) : List (Int × Option String) :=
  kd.answers.map (fun k => (k.questionNumber, k.correctAnswer))

/-- JS Map.get over an entry list: a later entry overwrites an earlier one
with the same key, and an absent key yields undefined, which collapses with
a stored undefined value into one None. -/
def jsMapGet (pairs : List (Int × Option String)) (n : Int) : Option String :=
  match pairs.reverse.find? (fun p => p.1 == n) with
  | some p => p.2
  | none => none

/-- recomputeIsCorrect from server.js: spreads each submitted item and
overwrites isCorrect with the strict-equality test of the key lookup
against the submitted answer. -/
def recomputeIsCorrect (answers : List AnswerItem)
    (pairs : List (Int × Option String)) : List AnswerItem :=
  answers.map (fun a =>
    { a with isCorrect := some (jsMapGet pairs a.questionNumber == a.answer) })

/-- Scan of a list keeping the element with the greatest createdAt; the
accumulator, and hence an earlier element, wins ties. -/
def pickLatest : Option AnswerKeyDoc → List AnswerKeyDoc → Option AnswerKeyDoc
  | acc, [] => acc
  | none, k :: ks => pickLatest (some k) ks
  | some b, k :: ks =>
    pickLatest (some (if b.createdAt < k.createdAt then k else b)) ks

/-- AnswerKey.findOne filtered by assessmentId with sort createdAt
descending, as used by POST /student-answers and getLatestAssessmentBundle. -/
def findLatestKey (keys : List AnswerKeyDoc) (aid : Nat) : Option AnswerKeyDoc :=
  pickLatest none (keys.filter (fun k => k.assessmentId == aid))

/-- AnswerKey.findOne filtered by assessmentId without any sort, as used by
GET /form/:formId and POST /form/:formId/submit: the first matching
document in natural order. -/
def findFirstKey (keys : List AnswerKeyDoc) (aid : Nat) : Option AnswerKeyDoc :=
  keys.find? (fun k => k.assessmentId == aid)

/-- Following the spec wording: the authoritative key of an assessment is
the AnswerKey with the greatest createdAt among the keys of that
assessment. -/
def isAuthoritativeKey (keys : List AnswerKeyDoc) (aid : Nat)
    (k : AnswerKeyDoc) : Prop :=
  k ∈ keys ∧ k.assessmentId = aid ∧
    ∀ j ∈ keys, j.assessmentId = aid → j.createdAt ≤ k.createdAt

/-- mongoose enum validation of a student answer item: a present answer
must be one of the letters, a missing answer is accepted. -/
def validStudentItem (a : AnswerItem) : Bool :=
  match a.answer with
  | none => true
  | some s => letters.contains s

/-- Outcome of POST /student-answers: 400 invalid data, 400 missing key,
500 from a create validation failure, or 201 with the stored document. -/
inductive SubmitResult where
  | invalidInput
  | noAnswerKey
  | storageFailure
  | created (doc : StudentAnswerDoc)
deriving DecidableEq

/-- POST /student-answers (identical in both variants): falsy-field check,
latest-key lookup, recomputation of isCorrect, then StudentAnswer.create. -/
def postStudentAnswers (keys : List AnswerKeyDoc) (assessmentId : Option Nat)
    (studentName : String) (answers : Option (List AnswerItem)) : SubmitResult :=
  match assessmentId, answers with
  | none, _ => .invalidInput
  | some _, none => .invalidInput
  | some aid, some ans =>
    if studentName == "" then .invalidInput
    else
      match findLatestKey keys aid with
      | none => .noAnswerKey
      | some keyDoc =>
        let normalized := recomputeIsCorrect ans (keyPairs keyDoc)
        if normalized.all validStudentItem then
          .created { assessmentId := aid, studentName := studentName,
                     answers := normalized }
        else .storageFailure

/-- Whitespace test for the trim and collapse operations; the JS \s class
restricted to the ASCII whitespace the requests at hand contain. -/
def wsChar (c : Char) : Bool :=
  c == ' ' || c == '\t' || c == '\n' || c == '\r'

/-- Kernel-reducible rendition of String.trim: drops whitespace from both
ends, as the JS trim method does. -/
def strTrim (s : String) : String :=
  ⟨((s.data.dropWhile wsChar).reverse.dropWhile wsChar).reverse⟩

/-- Kernel-reducible rendition of String.toLower, covering the ASCII
letters of the inputs at hand (the JS toLowerCase method). -/
def strLower (s : String) : String :=
  ⟨s.data.map Char.toLower⟩

/-- The maximal whitespace-free runs of a character list, accumulated in
reverse in cur while scanning. -/
def splitWsAux (cur : List Char) : List Char → List (List Char)
  | [] => if cur.isEmpty then [] else [cur.reverse]
  | c :: cs =>
    if wsChar c then
      if cur.isEmpty then splitWsAux [] cs
      else cur.reverse :: splitWsAux [] cs
    else splitWsAux (c :: cur) cs

/-- Joins words with single spaces. -/
def joinWords : List (List Char) → List Char
  | [] => []
  | [w] => w
  | w :: ws => w ++ ' ' :: joinWords ws

/-- The JS or-with-default on a possibly-undefined string: undefined and
the empty string both fall back to the default. -/
def jsOrStr (v : Option String) (d : String) : String :=
  match v with
  | some s => if s == "" then d else s
  | none => d

/-- JS falsiness of a possibly-undefined string value. -/
def jsFalsyOptStr (v : Option String) : Bool :=
  match v with
  | none => true
  | some s => s == ""

/-- The trim plus whitespace-collapse applied to studentName in the form
submit handler: runs of whitespace become one space, ends are trimmed,
which is the same as joining the whitespace-separated words with single
spaces. -/
def collapseWs (s : String) : String :=
  ⟨joinWords (splitWsAux [] s.data)⟩

/-- An anonymous form submission body: the optional studentName field and
the radio fields, addressed by question number (field name q plus number). -/
structure FormBody where
  studentName : Option String
  fields : Int → Option String

/-- The answer extracted for one question in the form submit handler: the
raw field value with undefined collapsed to the empty string, kept only
when it is one of the letters. -/
def resolveFormAnswer (body : FormBody) (n : Int) : String :=
  let val := (body.fields n).getD ""
  if letters.contains val then val else ""

/-- The graded item the form submit handler builds for one assessment
question. -/
def gradedFormItem (pairs : List (Int × Option String)) (body : FormBody)
    (q : QuestionRef) : AnswerItem :=
  let answer := resolveFormAnswer body q.number
  { questionNumber := q.number, answer := some answer,
    isCorrect := some (jsMapGet pairs q.number == some answer),
    subject := q.subject }

/-- Outcome of POST /form/:formId/submit. -/
inductive FormSubmitResult where
  | formNotFound
  | formIncomplete
  | incompleteSubmission
  | storageFailure
  | submitted (doc : StudentAnswerDoc)
deriving DecidableEq

/-- POST /form/:formId/submit (identical in both variants): form lookup,
assessment and key lookup (key fetched with findOne without sort), name
normalization, per-question grading, completeness check, then
StudentAnswer.create, whose required studentName rejects the empty
string. -/
def submitForm (forms : List FormDoc) (assessments : List AssessmentDoc)
    (keys : List AnswerKeyDoc) (fid : String) (body : FormBody) :
    FormSubmitResult :=
  match forms.find? (fun f => f.formId == fid) with
  | none => .formNotFound
  | some form =>
    match assessments.find? (fun a => a.id == form.assessmentId) with
    | none => .formIncomplete
    | some assessment =>
      match findFirstKey keys form.assessmentId with
      | none => .formIncomplete
      | some keyDoc =>
        let studentName := collapseWs (jsOrStr body.studentName "Anônimo")
        let answers := assessment.questions.map
          (gradedFormItem (keyPairs keyDoc) body)
        if answers.any (fun a => jsFalsyOptStr a.answer) then
          .incompleteSubmission
        else if studentName == "" then .storageFailure
        else .submitted { assessmentId := form.assessmentId,
                          studentName := studentName, answers := answers }

/-- Outcome of GET /form/:formId. -/
inductive RenderFormResult where
  | formNotFound
  | formIncomplete
  | ok (questions : List QuestionRef)
deriving DecidableEq

/-- GET /form/:formId (identical in both variants): the completeness test
only checks that the assessment exists and that some key exists, with the
key fetched by findOne without sort. -/
def renderForm (forms : List FormDoc) (assessments : List AssessmentDoc)
    (keys : List AnswerKeyDoc) (fid : String) : RenderFormResult :=
  match forms.find? (fun f => f.formId == fid) with
  | none => .formNotFound
  | some form =>
    match assessments.find? (fun a => a.id == form.assessmentId) with
    | none => .formIncomplete
    | some assessment =>
      match findFirstKey keys assessment.id with
      | none => .formIncomplete
      | some _ => .ok assessment.questions

/-- Outcome of POST /assessments. -/
inductive CreateAssessmentResult where
  | invalidInput
  | storageFailure
  | created (name : String) (questionsCount : Int)
      (questions : List QuestionRef)
deriving DecidableEq

/-- POST /assessments (identical in both variants): falsy name, falsy
questionsCount or non-array questions give 400; a length mismatch gives
400; Assessment.create then enforces min 1 and max 50 on questionsCount,
a violation surfacing as 500. -/
def createAssessment (name : String) (questionsCount : Option Int)
    (questions : Option (List QuestionRef)) : CreateAssessmentResult :=
  match questions with
  | none => .invalidInput
  | some qs =>
    match questionsCount with
    | none => .invalidInput
    | some c =>
      if name == "" || c == 0 then .invalidInput
      else if (qs.length : Int) ≠ c then .invalidInput
      else if c < 1 ∨ 50 < c then .storageFailure
      else .created name c qs

/-- Outcome of POST /auth/signup. -/
inductive SignupResult where
  | invalidInput
  | duplicateEmail
  | storageFailure
  | created (u : UserDoc)
deriving DecidableEq

/-- The storage normalization of the email in the V1 signup handler:
lowercase, then trim. -/
def normalizeEmail (email : String) : String :=
  strTrim (strLower email)

/-- POST /auth/signup of variant V1 (lines 254..290): the duplicate check
runs findOne on the raw submitted email; the stored document then uses the
trimmed name and the lowercased trimmed email, so User.create can still
fail on the required name (a blank-only name trims to empty) or on the
unique email index (a raw-distinct but normalized-equal email). -/
def signupV1 (users : List UserDoc) (name email password : String)
    (role : Option String) : SignupResult :=
  if name == "" || email == "" || password == "" then .invalidInput
  else if users.any (fun u => u.email == email) then .duplicateEmail
  else if strTrim name == "" || users.any (fun u => u.email == normalizeEmail email)
  then .storageFailure
  else
    .created { name := strTrim name, email := normalizeEmail email,
               role := some (if role == some "professor" then "professor"
                             else "aluno") }

/-- POST /auth/signup of variant V2 (lines 1060..1092): only email and
password are required, the duplicate check and the stored email both use
the raw submitted value, and an unrecognized role is stored as null. -/
def signupV2 (users : List UserDoc) (name : Option String)
    (email password : String) (role : Option String) : SignupResult :=
  if email == "" || password == "" then .invalidInput
  else if users.any (fun u => u.email == email) then .duplicateEmail
  else
    .created { name := name.getD "", email := email,
               role := if role == some "aluno" || role == some "professor"
                       then role else none }

/-- Outcome of the professor gate middlewares. -/
inductive GateResult where
  | forbidden
  | ok
deriving DecidableEq

/-- onlyProfessor of variant V1 (lines 217..221): a single 403 response
for every role other than professor, the unset role included. -/
def onlyProfessor (role : Option String) : GateResult :=
  if role == some "professor" then .ok else .forbidden

/-- requireProfessor of variant V2 (lines 1024..1031): a single 403
response for every role other than professor, the unset role included. -/
def requireProfessor (role : Option String) : GateResult :=
  if role == some "professor" then .ok else .forbidden

/-- The JS map with index over a list, translated with an explicit running
index so that the element at position i is built from i. -/
def mapIdxFrom (j : Nat) (f : Nat → α → β) : List α → List β
  | [] => []
  | a :: as => f j a :: mapIdxFrom (j + 1) f as

/-- The byId JS Map of the from-bank builder, keyed by the id string; a
later entry overwrites an earlier one. -/
def byIdGet (found : List BankQuestion) (id : String) : Option BankQuestion :=
  found.reverse.find? (fun q => q.id == id)

/-- mongoose enum validation of an answer-key item: a present correctAnswer
must be one of the letters, a missing one is accepted. -/
def validKeyItem (k : KeyItem) : Bool :=
  match k.correctAnswer with
  | none => true
  | some s => letters.contains s

/-- The invariant the bank schema enum guarantees for stored bank records:
a present correctAnswer is one of the letters. -/
def validBankAnswer (q : BankQuestion) : Bool :=
  match q.correctAnswer with
  | none => true
  | some s => letters.contains s

/-- Outcome of POST /assessments/from-bank. -/
inductive FromBankResult where
  | invalidInput
  | questionsNotFound
  | storageFailure
  | created (questions : List QuestionRef) (keyAnswers : List KeyItem)
deriving DecidableEq

/-- POST /assessments/from-bank of V1 (lines 437..480): resolves the ids
against the bank, fails when the count of found documents differs from the
count of ids, renumbers questions by position starting at 1, defaults a
falsy correctAnswer to the letter A and a falsy subject to Assunto, then
creates the Assessment (questionsCount capped at 50 by the schema) and
the AnswerKey in that order. -/
def createAssessmentFromBank (bank : List BankQuestion) (name : String)
    (questionIds : Option (List String)) : FromBankResult :=
  match questionIds with
  | none => .invalidInput
  | some ids =>
    if name == "" || ids.length == 0 then .invalidInput
    else
      let found := bank.filter (fun q => ids.contains q.id)
      if found.length ≠ ids.length then .questionsNotFound
      else if (50 : Int) < (ids.length : Int) then .storageFailure
      else
        let ordered := mapIdxFrom 0 (fun idx id =>
          ({ number := (idx : Int) + 1,
             subject := some (jsOrStr ((byIdGet found id).bind
               (fun q => q.subject)) "Assunto") } : QuestionRef)) ids
        let answers := mapIdxFrom 0 (fun idx id =>
          ({ questionNumber := (idx : Int) + 1,
             correctAnswer := some (jsOrStr ((byIdGet found id).bind
               (fun q => q.correctAnswer)) "A"),
             subject := some (jsOrStr ((byIdGet found id).bind
               (fun q => q.subject)) "Assunto") } : KeyItem)) ids
        if answers.all validKeyItem then .created ordered answers
        else .storageFailure

/- ======================================================================
   Helper lemmas
   ====================================================================== -/

theorem recompute_length (ans : List AnswerItem)
    (pairs : List (Int × Option String)) :
    (recomputeIsCorrect ans pairs).length = ans.length :=
  List.length_map ans _

theorem recompute_getElem (ans : List AnswerItem)
    (pairs : List (Int × Option String)) (i : Nat) (a : AnswerItem)
    (h : ans[i]? = some a) :
    (recomputeIsCorrect ans pairs)[i]? =
      some { a with isCorrect := some (jsMapGet pairs a.questionNumber == a.answer) } := by
  unfold recomputeIsCorrect
  rw [List.getElem?_map, h]
  rfl

theorem jsMapGet_eq_none_of_forall (pairs : List (Int × Option String)) (n : Int)
    (h : ∀ p ∈ pairs, p.1 ≠ n) : jsMapGet pairs n = none := by
  unfold jsMapGet
  have hfind : pairs.reverse.find? (fun p => p.1 == n) = none := by
    rw [List.find?_eq_none]
    intro p hp
    simpa using h p (List.mem_reverse.mp hp)
  rw [hfind]

theorem stripCorrect_recompute (ans ans2 : List AnswerItem)
    (pairs : List (Int × Option String))
    (h : ans.map (fun a => { a with isCorrect := none }) =
         ans2.map (fun a => { a with isCorrect := none })) :
    recomputeIsCorrect ans pairs = recomputeIsCorrect ans2 pairs := by
  have key : ∀ (l : List AnswerItem),
      recomputeIsCorrect l pairs =
        (l.map (fun a => { a with isCorrect := none })).map
          (fun a => { a with isCorrect := some (jsMapGet pairs a.questionNumber == a.answer) }) := by
    intro l
    unfold recomputeIsCorrect
    rw [List.map_map]
    rfl
  rw [key ans, key ans2, h]

theorem postStudentAnswers_created (keys : List AnswerKeyDoc) (aid : Nat)
    (name : String) (ans : List AnswerItem) (doc : StudentAnswerDoc)
    (k : AnswerKeyDoc) (hk : findLatestKey keys aid = some k)
    (h : postStudentAnswers keys (some aid) name (some ans) = .created doc) :
    doc = { assessmentId := aid, studentName := name,
            answers := recomputeIsCorrect ans (keyPairs k) } := by
  simp only [postStudentAnswers] at h
  rw [hk] at h
  by_cases hn : name == ""
  · simp [hn] at h
  · simp only [hn, Bool.false_eq_true, if_false] at h
    by_cases hv : (recomputeIsCorrect ans (keyPairs k)).all validStudentItem
    · simp only [hv, if_true] at h
      exact (SubmitResult.created.inj h).symm
    · simp [hv] at h

theorem pickLatest_mem (l : List AnswerKeyDoc) :
    ∀ (acc : Option AnswerKeyDoc) (k : AnswerKeyDoc),
      pickLatest acc l = some k → acc = some k ∨ k ∈ l := by
  induction l with
  | nil => intro acc k h; simp only [pickLatest] at h; exact Or.inl h
  | cons a l ih =>
    intro acc k h
    cases acc with
    | none =>
      simp only [pickLatest] at h
      rcases ih (some a) k h with h2 | h2
      · exact Or.inr (by simp [Option.some.inj h2])
      · exact Or.inr (List.mem_cons_of_mem a h2)
    | some b =>
      simp only [pickLatest] at h
      by_cases hb : b.createdAt < a.createdAt
      · rw [if_pos hb] at h
        rcases ih (some a) k h with h2 | h2
        · exact Or.inr (by simp [Option.some.inj h2])
        · exact Or.inr (List.mem_cons_of_mem a h2)
      · rw [if_neg hb] at h
        rcases ih (some b) k h with h2 | h2
        · exact Or.inl h2
        · exact Or.inr (List.mem_cons_of_mem a h2)

theorem pickLatest_le (l : List AnswerKeyDoc) :
    ∀ (acc : Option AnswerKeyDoc) (k : AnswerKeyDoc),
      pickLatest acc l = some k →
        (∀ b, acc = some b → b.createdAt ≤ k.createdAt) ∧
        (∀ j ∈ l, j.createdAt ≤ k.createdAt) := by
  induction l with
  | nil =>
    intro acc k h
    simp only [pickLatest] at h
    refine ⟨fun b hb => ?_, fun j hj => absurd hj (List.not_mem_nil j)⟩
    rw [h] at hb
    rw [Option.some.inj hb]
  | cons a l ih =>
    intro acc k h
    cases acc with
    | none =>
      simp only [pickLatest] at h
      have h2 := ih (some a) k h
      refine ⟨fun b hb => (nomatch hb), fun j hj => ?_⟩
      rcases List.mem_cons.mp hj with rfl | hj2
      · exact h2.1 j rfl
      · exact h2.2 j hj2
    | some b =>
      simp only [pickLatest] at h
      by_cases hb : b.createdAt < a.createdAt
      · rw [if_pos hb] at h
        have h2 := ih (some a) k h
        have ha : a.createdAt ≤ k.createdAt := h2.1 a rfl
        refine ⟨fun c hc => ?_, fun j hj => ?_⟩
        · rw [show c = b from (Option.some.inj hc).symm]
          exact le_trans (le_of_lt hb) ha
        · rcases List.mem_cons.mp hj with rfl | hj2
          · exact ha
          · exact h2.2 j hj2
      · rw [if_neg hb] at h
        have h2 := ih (some b) k h
        have hble : b.createdAt ≤ k.createdAt := h2.1 b rfl
        refine ⟨fun c hc => ?_, fun j hj => ?_⟩
        · rw [show c = b from (Option.some.inj hc).symm]
          exact hble
        · rcases List.mem_cons.mp hj with rfl | hj2
          · exact le_trans (Nat.le_of_not_lt hb) hble
          · exact h2.2 j hj2

theorem pickLatest_eq_none (l : List AnswerKeyDoc) :
    ∀ (acc : Option AnswerKeyDoc), pickLatest acc l = none →
      acc = none ∧ l = [] := by
  induction l with
  | nil => intro acc h; simp only [pickLatest] at h; exact ⟨h, rfl⟩
  | cons a l ih =>
    intro acc h
    cases acc with
    | none =>
      simp only [pickLatest] at h
      exact absurd ((ih _ h).1) (by simp)
    | some b =>
      simp only [pickLatest] at h
      exact absurd ((ih _ h).1) (by simp)

theorem findLatestKey_authoritative (keys : List AnswerKeyDoc) (aid : Nat)
    (k : AnswerKeyDoc) (h : findLatestKey keys aid = some k) :
    isAuthoritativeKey keys aid k := by
  unfold findLatestKey at h
  have hmem : k ∈ keys.filter (fun j => j.assessmentId == aid) := by
    rcases pickLatest_mem _ none k h with h2 | h2
    · cases h2
    · exact h2
  have hmem2 := List.mem_filter.mp hmem
  refine ⟨hmem2.1, by simpa using hmem2.2, fun j hj hja => ?_⟩
  have hjf : j ∈ keys.filter (fun x => x.assessmentId == aid) :=
    List.mem_filter.mpr ⟨hj, by simpa using hja⟩
  exact (pickLatest_le _ none k h).2 j hjf

theorem findLatestKey_isSome_iff (keys : List AnswerKeyDoc) (aid : Nat) :
    (findLatestKey keys aid).isSome ↔ ∃ j ∈ keys, j.assessmentId = aid := by
  unfold findLatestKey
  constructor
  · intro h
    rcases Option.isSome_iff_exists.mp h with ⟨k, hk⟩
    rcases pickLatest_mem _ none k hk with h2 | h2
    · cases h2
    · have := List.mem_filter.mp h2
      exact ⟨k, this.1, by simpa using this.2⟩
  · intro ⟨j, hj, hja⟩
    rw [Option.isSome_iff_ne_none]
    intro hnone
    have := (pickLatest_eq_none _ none hnone).2
    have hjf : j ∈ keys.filter (fun x => x.assessmentId == aid) :=
      List.mem_filter.mpr ⟨hj, by simpa using hja⟩
    rw [this] at hjf
    exact absurd hjf (List.not_mem_nil j)

theorem findFirstKey_isSome_iff (keys : List AnswerKeyDoc) (aid : Nat) :
    (findFirstKey keys aid).isSome ↔ ∃ j ∈ keys, j.assessmentId = aid := by
  unfold findFirstKey
  rw [List.find?_isSome]
  constructor
  · intro ⟨x, hx, hb⟩; exact ⟨x, hx, by simpa using hb⟩
  · intro ⟨x, hx, hb⟩; exact ⟨x, hx, by simpa using hb⟩

theorem findFirst_eq_head_filter (keys : List AnswerKeyDoc) (aid : Nat) :
    findFirstKey keys aid = (keys.filter (fun j => j.assessmentId == aid)).head? := by
  unfold findFirstKey
  induction keys with
  | nil => rfl
  | cons a l ih =>
    by_cases ha : a.assessmentId == aid
    · simp [List.find?, List.filter, ha]
    · simp only [List.find?, List.filter, ha]
      exact ih

/- ======================================================================
   Claim C2
   ====================================================================== -/

/-- C2: the stored correctness of a POST /student-answers submission is
independent of any client-supplied isCorrect field: two requests identical
except for the isCorrect values of their items produce identical results;
and an item whose answer differs from the authoritative key entry for its
question number is stored with isCorrect false, whatever the client sent. -/
theorem claim_c2 :
    (∀ (keys : List AnswerKeyDoc) (assessmentId : Option Nat) (name : String)
        (ans ans2 : List AnswerItem),
        ans.map (fun a => { a with isCorrect := none }) =
          ans2.map (fun a => { a with isCorrect := none }) →
        postStudentAnswers keys assessmentId name (some ans) =
          postStudentAnswers keys assessmentId name (some ans2))
    ∧ (∀ (keys : List AnswerKeyDoc) (aid : Nat) (name : String)
        (ans : List AnswerItem) (k : AnswerKeyDoc) (doc : StudentAnswerDoc),
        findLatestKey keys aid = some k →
        postStudentAnswers keys (some aid) name (some ans) = .created doc →
        ∀ (i : Nat) (a : AnswerItem), ans[i]? = some a →
          jsMapGet (keyPairs k) a.questionNumber ≠ a.answer →
          doc.answers[i]? = some { a with isCorrect := some false }) := by
  constructor
  · intro keys assessmentId name ans ans2 h
    cases assessmentId with
    | none => rfl
    | some aid =>
      simp only [postStudentAnswers]
      cases findLatestKey keys aid with
      | none => rfl
      | some keyDoc =>
        simp only [stripCorrect_recompute ans ans2 (keyPairs keyDoc) h]
  · intro keys aid name ans k doc hk h i a hi hne
    have hdoc := postStudentAnswers_created keys aid name ans doc k hk h
    rw [hdoc]
    have := recompute_getElem ans (keyPairs k) i a hi
    simpa [beq_eq_false_iff_ne.mpr hne] using this

/-- C2 witness: a concrete instantiation of both halves of claim_c2 at a
one-key store, with the submitted item falsely marked correct. -/
theorem claim_c2_witness :
    postStudentAnswers
        [{ assessmentId := 1,
           answers := [{ questionNumber := 1, correctAnswer := some "B",
                         subject := none }], createdAt := 3 }]
        (some 1) "Rui"
        (some [{ questionNumber := 1, answer := some "A",
                 isCorrect := some true, subject := none }]) =
      postStudentAnswers
        [{ assessmentId := 1,
           answers := [{ questionNumber := 1, correctAnswer := some "B",
                         subject := none }], createdAt := 3 }]
        (some 1) "Rui"
        (some [{ questionNumber := 1, answer := some "A",
                 isCorrect := some false, subject := none }]) ∧
    ∀ doc, postStudentAnswers
        [{ assessmentId := 1,
           answers := [{ questionNumber := 1, correctAnswer := some "B",
                         subject := none }], createdAt := 3 }]
        (some 1) "Rui"
        (some [{ questionNumber := 1, answer := some "A",
                 isCorrect := some true, subject := none }]) = .created doc →
      doc.answers[0]? = some { questionNumber := 1, answer := some "A",
                               isCorrect := some false, subject := none } := by
  constructor
  · exact claim_c2.1 _ _ _ _ _ rfl
  · intro doc h
    exact claim_c2.2
      [{ assessmentId := 1,
         answers := [{ questionNumber := 1, correctAnswer := some "B",
                       subject := none }], createdAt := 3 }]
      1 "Rui"
      [{ questionNumber := 1, answer := some "A", isCorrect := some true,
         subject := none }]
      { assessmentId := 1,
        answers := [{ questionNumber := 1, correctAnswer := some "B",
                      subject := none }], createdAt := 3 } doc rfl h 0
      { questionNumber := 1, answer := some "A", isCorrect := some true,
        subject := none } rfl (by decide)

/- ======================================================================
   Claim C3
   ====================================================================== -/

/-- C3 counterexample: an item whose answer field is absent and whose
question number is absent from the key is graded isCorrect true by
recomputeIsCorrect, because the JS comparison of undefined with undefined
holds; the claim demands isCorrect false for a question number absent from
the key. -/
theorem claim_c3_counterexample :
    (recomputeIsCorrect
        [{ questionNumber := 1, answer := none, isCorrect := none,
           subject := none }]
        [((2 : Int), some "B")]).map (fun a => a.isCorrect) = [some true] ∧
    ([some true] : List (Option Bool)) ≠ [some false] :=
  ⟨rfl, by decide⟩

/-- C3 amended: grading is total (defined for every submitted list and
every key, output of the same length) and pointwise deterministic, with
isCorrect the strict-equality test of the key lookup against the submitted
answer; an item whose question number is absent from the key is graded
isCorrect false whenever the item carries an answer string, while an item
with no answer field at all compares undefined to undefined and is graded
true in that case. -/
theorem claim_c3_amended (ans : List AnswerItem)
    (pairs : List (Int × Option String)) :
    (recomputeIsCorrect ans pairs).length = ans.length
    ∧ (∀ (i : Nat) (a : AnswerItem), ans[i]? = some a →
        (recomputeIsCorrect ans pairs)[i]? =
          some { a with
                 isCorrect := some (jsMapGet pairs a.questionNumber == a.answer) })
    ∧ (∀ (i : Nat) (a : AnswerItem) (s : String), ans[i]? = some a → a.answer = some s →
        (∀ p ∈ pairs, p.1 ≠ a.questionNumber) →
        (recomputeIsCorrect ans pairs)[i]? =
          some { a with isCorrect := some false })
    ∧ (∀ (i : Nat) (a : AnswerItem), ans[i]? = some a → a.answer = none →
        (∀ p ∈ pairs, p.1 ≠ a.questionNumber) →
        (recomputeIsCorrect ans pairs)[i]? =
          some { a with isCorrect := some true }) := by
  refine ⟨recompute_length ans pairs, fun i a hi => recompute_getElem ans pairs i a hi,
    fun i a s hi hs habs => ?_, fun i a hi hs habs => ?_⟩
  · have hg := recompute_getElem ans pairs i a hi
    rw [jsMapGet_eq_none_of_forall pairs a.questionNumber habs] at hg
    have h2 : ((none : Option String) == a.answer) = false := by rw [hs]; rfl
    rw [h2] at hg
    exact hg
  · have hg := recompute_getElem ans pairs i a hi
    rw [jsMapGet_eq_none_of_forall pairs a.questionNumber habs] at hg
    have h2 : ((none : Option String) == a.answer) = true := by rw [hs]; rfl
    rw [h2] at hg
    exact hg

/-- C3 witness: a concrete item carrying an answer string whose question
number is absent from the key is graded isCorrect false. -/
theorem claim_c3_witness :
    (recomputeIsCorrect
        [{ questionNumber := 1, answer := some "A", isCorrect := none,
           subject := none }]
        [((2 : Int), some "B")])[0]? =
      some { questionNumber := 1, answer := some "A",
             isCorrect := some false, subject := none } :=
  (claim_c3_amended _ _).2.2.1 0 _ "A" rfl rfl (by decide)

/- ======================================================================
   Claim C5
   ====================================================================== -/

/-- C5 counterexample: POST /student-answers accepts an empty answers
array: with a key present, the request is stored as a submission with no
items instead of failing with InvalidInput, because the handler only
checks Array.isArray and never the length. -/
theorem claim_c5_counterexample :
    postStudentAnswers
        [{ assessmentId := 1,
           answers := [{ questionNumber := 1, correctAnswer := some "A",
                         subject := none }], createdAt := 3 }]
        (some 1) "Maria" (some []) =
      .created { assessmentId := 1, studentName := "Maria", answers := [] } ∧
    SubmitResult.created { assessmentId := 1, studentName := "Maria",
                           answers := [] } ≠ .invalidInput :=
  ⟨rfl, by decide⟩

/-- C5 amended: POST /student-answers fails with InvalidInput exactly when
the assessmentId is falsy, the answers field is not an array, or the
studentName is empty — an empty answers array is accepted; and for an
assessment with no AnswerKey it fails with NoAnswerKey, storing nothing. -/
theorem claim_c5_amended (keys : List AnswerKeyDoc) (aid : Option Nat)
    (name : String) (ans : Option (List AnswerItem)) :
    (postStudentAnswers keys aid name ans = .invalidInput ↔
      (aid = none ∨ ans = none ∨ name = ""))
    ∧ (∀ a2 l, aid = some a2 → ans = some l → name ≠ "" →
        findLatestKey keys a2 = none →
        postStudentAnswers keys aid name ans = .noAnswerKey) := by
  constructor
  · cases aid with
    | none => simp [postStudentAnswers]
    | some a2 =>
      cases ans with
      | none => simp [postStudentAnswers]
      | some l =>
        simp only [postStudentAnswers]
        by_cases hn : name = ""
        · simp [hn]
        · have hnb : (name == "") = false := beq_eq_false_iff_ne.mpr hn
          simp only [hnb, Bool.false_eq_true, if_false]
          cases hlk : findLatestKey keys a2 with
          | none => simp [hn]
          | some kd =>
            by_cases hv : (recomputeIsCorrect l (keyPairs kd)).all validStudentItem
            · simp [hv, hn]
            · simp [hv, hn]
  · intro a2 l ha hl hn hk
    subst ha; subst hl
    simp only [postStudentAnswers, hk]
    simp [beq_eq_false_iff_ne.mpr hn]

/-- C5 witness: with no key stored for the assessment, a well-formed
request fails with NoAnswerKey. -/
theorem claim_c5_witness :
    postStudentAnswers [] (some 1) "Maria"
      (some [{ questionNumber := 1, answer := some "A", isCorrect := none,
               subject := none }]) = .noAnswerKey :=
  (claim_c5_amended [] (some 1) "Maria" _).2 1 _ rfl rfl (by decide) rfl

/- ======================================================================
   Claim C9
   ====================================================================== -/

/-- C9 counterexample: the professor gates return the very same generic
403 outcome for a caller with no role and for a caller with the student
role; the two outcomes are not distinct, and no RoleNotSet outcome exists
in the code. -/
theorem claim_c9_counterexample :
    onlyProfessor none = .forbidden ∧
    onlyProfessor (some "aluno") = .forbidden ∧
    onlyProfessor none = onlyProfessor (some "aluno") ∧
    requireProfessor none = requireProfessor (some "aluno") :=
  ⟨rfl, rfl, rfl, rfl⟩

/-- C9 amended: both professor gates have a single failure outcome: every
caller whose role is not professor — the unset role and the student role
alike — receives the same generic Forbidden response; no distinct
RoleNotSet outcome exists. -/
theorem claim_c9_amended (role : Option String) (h : role ≠ some "professor") :
    onlyProfessor role = .forbidden ∧
    requireProfessor role = .forbidden ∧
    onlyProfessor role = onlyProfessor none ∧
    requireProfessor role = requireProfessor none := by
  have hb : (role == some "professor") = false := beq_eq_false_iff_ne.mpr h
  unfold onlyProfessor requireProfessor
  simp [hb]

/-- C9 witness: claim_c9_amended instantiated at the student role. -/
theorem claim_c9_witness :
    onlyProfessor (some "aluno") = .forbidden ∧
    requireProfessor (some "aluno") = .forbidden ∧
    onlyProfessor (some "aluno") = onlyProfessor none ∧
    requireProfessor (some "aluno") = requireProfessor none :=
  claim_c9_amended (some "aluno") (by decide)

/- ======================================================================
   Claim C1
   ====================================================================== -/

theorem submitForm_submitted (forms : List FormDoc)
    (assessments : List AssessmentDoc) (keys : List AnswerKeyDoc)
    (fid : String) (body : FormBody) (doc : StudentAnswerDoc)
    (h : submitForm forms assessments keys fid body = .submitted doc) :
    ∃ form assessment keyDoc,
      forms.find? (fun f => f.formId == fid) = some form ∧
      assessments.find? (fun a => a.id == form.assessmentId) = some assessment ∧
      findFirstKey keys form.assessmentId = some keyDoc ∧
      doc = { assessmentId := form.assessmentId,
              studentName := collapseWs (jsOrStr body.studentName "Anônimo"),
              answers := assessment.questions.map
                (gradedFormItem (keyPairs keyDoc) body) } := by
  cases hf : forms.find? (fun f => f.formId == fid) with
  | none => simp [submitForm, hf] at h
  | some form =>
    cases ha : assessments.find? (fun a => a.id == form.assessmentId) with
    | none => simp [submitForm, hf, ha] at h
    | some assessment =>
      cases hk : findFirstKey keys form.assessmentId with
      | none => simp [submitForm, hf, ha, hk] at h
      | some keyDoc =>
        refine ⟨form, assessment, keyDoc, rfl, ha, hk, ?_⟩
        simp only [submitForm, hf, ha, hk] at h
        by_cases hany : (assessment.questions.map
            (gradedFormItem (keyPairs keyDoc) body)).any
            (fun x => jsFalsyOptStr x.answer)
        · simp [hany] at h
        · simp only [hany, Bool.false_eq_true, if_false] at h
          by_cases hnm : collapseWs (jsOrStr body.studentName "Anônimo") == ""
          · simp [hnm] at h
          · simp only [hnm, Bool.false_eq_true, if_false] at h
            exact (FormSubmitResult.submitted.inj h).symm

/-- C1 counterexample: with two keys for assessment 1, the older grading
answer A correct and the newer (greatest createdAt, hence authoritative)
grading answer B correct, the public form submission of answer A is stored
with isCorrect true: POST /form/:formId/submit graded it against the first
stored key, while the authoritative key grades the same answer false. -/
theorem claim_c1_counterexample :
    submitForm
        [{ formId := "f", assessmentId := 1, title := "T", description := "",
           requireName := true }]
        [{ id := 1, name := "Prova", questionsCount := 1,
           questions := [{ number := 1, subject := some "Física" }],
           createdAt := 5 }]
        [{ assessmentId := 1,
           answers := [{ questionNumber := 1, correctAnswer := some "A",
                         subject := none }], createdAt := 10 },
         { assessmentId := 1,
           answers := [{ questionNumber := 1, correctAnswer := some "B",
                         subject := none }], createdAt := 20 }]
        "f"
        { studentName := some "Zoe",
          fields := fun n => if n == 1 then some "A" else none } =
      .submitted { assessmentId := 1, studentName := "Zoe",
                   answers := [{ questionNumber := 1, answer := some "A",
                                 isCorrect := some true,
                                 subject := some "Física" }] }
    ∧ findLatestKey
        [{ assessmentId := 1,
           answers := [{ questionNumber := 1, correctAnswer := some "A",
                         subject := none }], createdAt := 10 },
         { assessmentId := 1,
           answers := [{ questionNumber := 1, correctAnswer := some "B",
                         subject := none }], createdAt := 20 }] 1 =
      some { assessmentId := 1,
             answers := [{ questionNumber := 1, correctAnswer := some "B",
                           subject := none }], createdAt := 20 }
    ∧ (jsMapGet (keyPairs
        { assessmentId := 1,
          answers := [{ questionNumber := 1, correctAnswer := some "B",
                        subject := none }], createdAt := 20 }) 1 == some "A")
      = false :=
  ⟨rfl, rfl, rfl⟩

/-- C1 amended: POST /student-answers does grade against the authoritative
key, the one with greatest createdAt; but the public form endpoints fetch
the key with findOne without any sort, which returns the first matching
key in natural order — so an anonymous submission is graded against the
first stored key, not necessarily the authoritative one, and GET
/form/:formId only uses the existence of some key (equivalent to the
existence of the authoritative key) to decide completeness. -/
theorem claim_c1_amended (keys : List AnswerKeyDoc) (aid : Nat) (name : String)
    (ans : List AnswerItem) (k : AnswerKeyDoc)
    (hname : name ≠ "")
    (hk : findLatestKey keys aid = some k)
    (hval : (recomputeIsCorrect ans (keyPairs k)).all validStudentItem = true) :
    isAuthoritativeKey keys aid k
    ∧ postStudentAnswers keys (some aid) name (some ans) =
        .created { assessmentId := aid, studentName := name,
                   answers := recomputeIsCorrect ans (keyPairs k) }
    ∧ (∀ aid2, findFirstKey keys aid2 =
        (keys.filter (fun j => j.assessmentId == aid2)).head?)
    ∧ (∀ aid2, (findFirstKey keys aid2).isSome ↔ (findLatestKey keys aid2).isSome)
    ∧ (∀ forms assessments fid body doc,
        submitForm forms assessments keys fid body = .submitted doc →
        ∃ form k0, forms.find? (fun f => f.formId == fid) = some form
          ∧ findFirstKey keys form.assessmentId = some k0
          ∧ ∀ item ∈ doc.answers,
              item.isCorrect =
                some (jsMapGet (keyPairs k0) item.questionNumber == item.answer))
    ∧ (∀ forms assessments fid form a,
        forms.find? (fun f => f.formId == fid) = some form →
        assessments.find? (fun x => x.id == form.assessmentId) = some a →
        (renderForm forms assessments keys fid = .ok a.questions ↔
          (findLatestKey keys a.id).isSome)) := by
  refine ⟨findLatestKey_authoritative keys aid k hk, ?_, ?_, ?_, ?_, ?_⟩
  · simp only [postStudentAnswers, hk, hval, if_true]
    simp [beq_eq_false_iff_ne.mpr hname]
  · exact fun aid2 => findFirst_eq_head_filter keys aid2
  · intro aid2
    rw [findFirstKey_isSome_iff, findLatestKey_isSome_iff]
  · intro forms assessments fid body doc h
    rcases submitForm_submitted forms assessments keys fid body doc h with
      ⟨form, assessment, keyDoc, hf, ha, hkd, hdoc⟩
    refine ⟨form, keyDoc, hf, hkd, ?_⟩
    intro item hitem
    rw [hdoc] at hitem
    rcases List.mem_map.mp hitem with ⟨q, hq, rfl⟩
    rfl
  · intro forms assessments fid form a hf ha
    have hiff := (findFirstKey_isSome_iff keys a.id).trans
      (findLatestKey_isSome_iff keys a.id).symm
    cases hkd : findFirstKey keys a.id with
    | none =>
      simp only [renderForm, hf, ha, hkd]
      constructor
      · intro hcontr; cases hcontr
      · intro hsome
        have : (findFirstKey keys a.id).isSome := hiff.mpr hsome
        rw [hkd] at this
        cases this
    | some kd =>
      simp only [renderForm, hf, ha, hkd]
      constructor
      · intro _
        exact hiff.mp (by rw [hkd]; rfl)
      · intro _; trivial

/-- C1 witness: claim_c1_amended instantiated at the two-key store of the
counterexample, exhibiting the newer key as the authoritative one. -/
theorem claim_c1_witness :
    isAuthoritativeKey
      [{ assessmentId := 1,
         answers := [{ questionNumber := 1, correctAnswer := some "A",
                       subject := none }], createdAt := 10 },
       { assessmentId := 1,
         answers := [{ questionNumber := 1, correctAnswer := some "B",
                       subject := none }], createdAt := 20 }] 1
      { assessmentId := 1,
        answers := [{ questionNumber := 1, correctAnswer := some "B",
                      subject := none }], createdAt := 20 } :=
  (claim_c1_amended
    [{ assessmentId := 1,
       answers := [{ questionNumber := 1, correctAnswer := some "A",
                     subject := none }], createdAt := 10 },
     { assessmentId := 1,
       answers := [{ questionNumber := 1, correctAnswer := some "B",
                     subject := none }], createdAt := 20 }] 1 "Zoe" []
    { assessmentId := 1,
      answers := [{ questionNumber := 1, correctAnswer := some "B",
                    subject := none }], createdAt := 20 }
    (by decide) rfl rfl).1

/- ======================================================================
   Claim C4
   ====================================================================== -/

/-- C4 counterexample: a form submission in which every question is
answered with a letter still fails — with a storage error, not success —
when the studentName field is a blank string: the blank is truthy, so the
Anônimo default is skipped, and the name collapses to the empty string,
which the required studentName validation of StudentAnswer.create
rejects. -/
theorem claim_c4_counterexample :
    resolveFormAnswer
        { studentName := some " ",
          fields := fun n => if n == 1 then some "A" else none } 1 = "A"
    ∧ submitForm
        [{ formId := "f", assessmentId := 1, title := "T", description := "",
           requireName := true }]
        [{ id := 1, name := "Prova", questionsCount := 1,
           questions := [{ number := 1, subject := some "Física" }],
           createdAt := 5 }]
        [{ assessmentId := 1,
           answers := [{ questionNumber := 1, correctAnswer := some "A",
                         subject := none }], createdAt := 10 }]
        "f"
        { studentName := some " ",
          fields := fun n => if n == 1 then some "A" else none } =
      .storageFailure :=
  ⟨rfl, rfl⟩

/-- C4 amended: over a resolvable form whose assessment has N questions,
the submission fails with IncompleteSubmission exactly when some question
resolves to the empty answer (missing field or a value outside A..E); when
every question resolves to a letter and the normalized student name is
non-empty, it succeeds and stores exactly N graded items, one per
assessment question in order; a blank-only studentName instead makes the
create fail after grading. -/
theorem claim_c4_amended (forms : List FormDoc)
    (assessments : List AssessmentDoc) (keys : List AnswerKeyDoc)
    (fid : String) (body : FormBody) (form : FormDoc) (a : AssessmentDoc)
    (k : AnswerKeyDoc)
    (hf : forms.find? (fun f => f.formId == fid) = some form)
    (ha : assessments.find? (fun x => x.id == form.assessmentId) = some a)
    (hk : findFirstKey keys form.assessmentId = some k) :
    (submitForm forms assessments keys fid body = .incompleteSubmission ↔
      ∃ q ∈ a.questions, resolveFormAnswer body q.number = "")
    ∧ ((∀ q ∈ a.questions, resolveFormAnswer body q.number ≠ "") →
        collapseWs (jsOrStr body.studentName "Anônimo") ≠ "" →
        submitForm forms assessments keys fid body =
          .submitted { assessmentId := form.assessmentId,
                       studentName :=
                         collapseWs (jsOrStr body.studentName "Anônimo"),
                       answers := a.questions.map
                         (gradedFormItem (keyPairs k) body) }
        ∧ (a.questions.map (gradedFormItem (keyPairs k) body)).length =
            a.questions.length
        ∧ (∀ (i : Nat) (q : QuestionRef), a.questions[i]? = some q →
            (a.questions.map (gradedFormItem (keyPairs k) body))[i]? =
                some (gradedFormItem (keyPairs k) body q)
            ∧ (gradedFormItem (keyPairs k) body q).questionNumber = q.number
            ∧ (gradedFormItem (keyPairs k) body q).answer =
                some (resolveFormAnswer body q.number))) := by
  have hiff : (a.questions.map (gradedFormItem (keyPairs k) body)).any
      (fun x => jsFalsyOptStr x.answer) = true ↔
      ∃ q ∈ a.questions, resolveFormAnswer body q.number = "" := by
    rw [List.any_eq_true]
    constructor
    · rintro ⟨x, hx, hp⟩
      rcases List.mem_map.mp hx with ⟨q, hq, rfl⟩
      refine ⟨q, hq, ?_⟩
      simpa [gradedFormItem, jsFalsyOptStr] using hp
    · rintro ⟨q, hq, hr⟩
      refine ⟨gradedFormItem (keyPairs k) body q, List.mem_map_of_mem _ hq, ?_⟩
      simp [gradedFormItem, jsFalsyOptStr, hr]
  constructor
  · by_cases hany : (a.questions.map (gradedFormItem (keyPairs k) body)).any
        (fun x => jsFalsyOptStr x.answer)
    · simp only [submitForm, hf, ha, hk, hany, if_true]
      simpa [hany] using hiff
    · simp only [submitForm, hf, ha, hk, hany, Bool.false_eq_true, if_false]
      rw [iff_iff_implies_and_implies]
      constructor
      · intro hcontr
        by_cases hnm : collapseWs (jsOrStr body.studentName "Anônimo") == ""
        · rw [if_pos hnm] at hcontr; cases hcontr
        · rw [if_neg (by simpa using hnm)] at hcontr; cases hcontr
      · intro hex
        exact absurd (hiff.mpr hex) (by simpa using hany)
  · intro hall hnm
    have hany : (a.questions.map (gradedFormItem (keyPairs k) body)).any
        (fun x => jsFalsyOptStr x.answer) = false := by
      rw [Bool.eq_false_iff]
      intro hcontr
      rcases hiff.mp hcontr with ⟨q, hq, hr⟩
      exact hall q hq hr
    refine ⟨?_, List.length_map _ _, fun i q hq => ⟨?_, rfl, rfl⟩⟩
    · simp only [submitForm, hf, ha, hk, hany, Bool.false_eq_true, if_false]
      simp [beq_eq_false_iff_ne.mpr hnm]
    · rw [List.getElem?_map, hq]
      rfl

/-- C4 witness: claim_c4_amended instantiated at a concrete one-question
form, projecting the completeness equivalence. -/
theorem claim_c4_witness :
    submitForm
        [{ formId := "f", assessmentId := 1, title := "T", description := "",
           requireName := true }]
        [{ id := 1, name := "Prova", questionsCount := 1,
           questions := [{ number := 1, subject := some "Física" }],
           createdAt := 5 }]
        [{ assessmentId := 1,
           answers := [{ questionNumber := 1, correctAnswer := some "A",
                         subject := none }], createdAt := 10 }]
        "f"
        { studentName := some "Zoe", fields := fun _ => none } =
      .incompleteSubmission ↔
    ∃ q ∈ [({ number := 1, subject := some "Física" } : QuestionRef)],
      resolveFormAnswer
        { studentName := some "Zoe", fields := fun _ => none } q.number = "" :=
  (claim_c4_amended
    [{ formId := "f", assessmentId := 1, title := "T", description := "",
       requireName := true }]
    [{ id := 1, name := "Prova", questionsCount := 1,
       questions := [{ number := 1, subject := some "Física" }],
       createdAt := 5 }]
    [{ assessmentId := 1,
       answers := [{ questionNumber := 1, correctAnswer := some "A",
                     subject := none }], createdAt := 10 }]
    "f" { studentName := some "Zoe", fields := fun _ => none }
    { formId := "f", assessmentId := 1, title := "T", description := "",
      requireName := true }
    { id := 1, name := "Prova", questionsCount := 1,
      questions := [{ number := 1, subject := some "Física" }],
      createdAt := 5 }
    { assessmentId := 1,
      answers := [{ questionNumber := 1, correctAnswer := some "A",
                    subject := none }], createdAt := 10 }
    rfl rfl rfl).1

/- ======================================================================
   Claim C6
   ====================================================================== -/

/-- C6 counterexample: createAssessment with questionsCount 0 and an empty
questions list fails with InvalidInput although the length equals the
count, because the falsy-field check rejects the number 0 before the
length comparison; the claim said InvalidInput occurs exactly on a length
mismatch. -/
theorem claim_c6_counterexample :
    createAssessment "Prova" (some 0) (some []) = .invalidInput ∧
    (([] : List QuestionRef).length : Int) = 0 :=
  ⟨rfl, rfl⟩

/-- C6 amended: with a non-empty name, createAssessment fails with
InvalidInput exactly when the count is missing or 0 (JS falsy) or the
questions list length differs from it; when they match and the count is
within the schema bounds it succeeds with exactly the given count and
questions (and no update operation exists afterwards); a matching count
above the schema maximum of 50 instead fails at the store. -/
theorem claim_c6_amended (name : String) (c : Int) (qs : List QuestionRef)
    (hname : name ≠ "") :
    (createAssessment name (some c) (some qs) = .invalidInput ↔
      (c = 0 ∨ (qs.length : Int) ≠ c))
    ∧ ((qs.length : Int) = c → c ≠ 0 → c ≤ 50 →
        createAssessment name (some c) (some qs) = .created name c qs)
    ∧ createAssessment name none (some qs) = .invalidInput
    ∧ createAssessment name (some c) none = .invalidInput
    ∧ ((qs.length : Int) = c → 50 < c →
        createAssessment name (some c) (some qs) = .storageFailure) := by
  have h0 : (name == "") = false := beq_eq_false_iff_ne.mpr hname
  refine ⟨?_, ?_, rfl, rfl, ?_⟩
  · by_cases hc : c = 0
    · simp [createAssessment, h0, hc]
    · have hcb : (c == 0) = false := beq_eq_false_iff_ne.mpr hc
      simp only [createAssessment, h0, hcb, Bool.or_self, Bool.false_eq_true,
        if_false]
      by_cases hlen : (qs.length : Int) ≠ c
      · simp [hlen, hc]
      · rw [if_neg hlen]
        by_cases hrange : c < 1 ∨ 50 < c
        · simp [hrange, hc, hlen]
        · simp [hrange, hc, hlen]
  · intro hlen hc hle
    have hcb : (c == 0) = false := beq_eq_false_iff_ne.mpr hc
    have hge : (0 : Int) ≤ c := by rw [← hlen]; exact Int.natCast_nonneg _
    have hrange : ¬(c < 1 ∨ 50 < c) := by
      push_neg
      exact ⟨by omega, by omega⟩
    simp [createAssessment, h0, hcb, hlen, hrange]
  · intro hlen hgt
    have hc : c ≠ 0 := by omega
    have hcb : (c == 0) = false := beq_eq_false_iff_ne.mpr hc
    have hrange : c < 1 ∨ 50 < c := Or.inr hgt
    simp [createAssessment, h0, hcb, hlen, hrange]

/-- C6 witness: claim_c6_amended instantiated at a matching two-question
call, projecting the success case. -/
theorem claim_c6_witness :
    createAssessment "Prova"
      (some 2)
      (some [{ number := 1, subject := some "Física" },
             { number := 2, subject := some "Física" }]) =
      .created "Prova" 2
        [{ number := 1, subject := some "Física" },
         { number := 2, subject := some "Física" }] :=
  (claim_c6_amended "Prova" 2
    [{ number := 1, subject := some "Física" },
     { number := 2, subject := some "Física" }] (by decide)).2.1
    rfl (by decide) (by decide)

/- ======================================================================
   Claim C7
   ====================================================================== -/

/-- C7 counterexample: the V1 signup handler stores the student role
aluno, not an unset role, for an unrecognized requested role. -/
theorem claim_c7_counterexample :
    signupV1 [] "Ana" "a@x.com" "pw" (some "chefe") =
      .created { name := "Ana", email := "a@x.com", role := some "aluno" } ∧
    (some "aluno" : Option String) ≠ none :=
  ⟨rfl, by decide⟩

/-- C7 amended: the V2 signup handler stores the requested role exactly
when it is aluno or professor and null (unset) otherwise, as the claim
says; the V1 handler instead never leaves the role unset: it stores
professor exactly when professor was requested and the student role aluno
for every other requested value. -/
theorem claim_c7_amended (users : List UserDoc) (name email password : String)
    (role : Option String) :
    (∀ u, signupV2 users (some name) email password role = .created u →
        u.role = if role = some "aluno" ∨ role = some "professor" then role
                 else none)
    ∧ (∀ u, signupV1 users name email password role = .created u →
        u.role = some (if role = some "professor" then "professor"
                       else "aluno")) := by
  constructor
  · intro u h
    unfold signupV2 at h
    by_cases h1 : (email == "" || password == "") = true
    · rw [if_pos h1] at h; cases h
    · rw [if_neg h1] at h
      by_cases h2 : (users.any (fun u => u.email == email)) = true
      · rw [if_pos h2] at h; cases h
      · rw [if_neg h2] at h
        rw [← SignupResult.created.inj h]
        by_cases h3 : role = some "aluno" ∨ role = some "professor"
        · simp only [if_pos h3]
          have : (role == some "aluno" || role == some "professor") = true := by
            rcases h3 with h3 | h3 <;> simp [h3]
          simp [this]
        · simp only [if_neg h3]
          have : (role == some "aluno" || role == some "professor") = false := by
            push_neg at h3
            simp [beq_eq_false_iff_ne.mpr h3.1, beq_eq_false_iff_ne.mpr h3.2]
          simp [this]
  · intro u h
    unfold signupV1 at h
    by_cases h1 : (name == "" || email == "" || password == "") = true
    · rw [if_pos h1] at h; cases h
    · rw [if_neg h1] at h
      by_cases h2 : (users.any (fun u => u.email == email)) = true
      · rw [if_pos h2] at h; cases h
      · rw [if_neg h2] at h
        by_cases h3 : (strTrim name == "" ||
            users.any (fun u => u.email == normalizeEmail email)) = true
        · rw [if_pos h3] at h; cases h
        · rw [if_neg h3] at h
          rw [← SignupResult.created.inj h]
          by_cases h4 : role = some "professor"
          · simp [h4]
          · simp [beq_eq_false_iff_ne.mpr h4, if_neg h4]

/-- C7 witness: claim_c7_amended instantiated at an unrecognized role on
the V2 handler, whose created account carries the unset role. -/
theorem claim_c7_witness :
    ({ name := "", email := "b@x.com", role := none } : UserDoc).role =
      (if (some "chefe" : Option String) = some "aluno" ∨
          (some "chefe" : Option String) = some "professor"
       then (some "chefe" : Option String) else none) :=
  (claim_c7_amended [] "" "b@x.com" "pw" (some "chefe")).1
    { name := "", email := "b@x.com", role := none } rfl

/- ======================================================================
   Claim C8
   ====================================================================== -/

/-- C8 counterexample: in the V1 signup handler the duplicate check runs
on the raw submitted email, so a signup whose email differs from a stored
account only by letter case slips past the check and then dies on the
unique index over the normalized stored email — a 500 storage error, not
the DuplicateEmail conflict the claim requires. -/
theorem claim_c8_counterexample :
    signupV1 [{ name := "Bea", email := "a@x.com", role := none }]
      "Ana" "A@X.com" "pw" none = .storageFailure ∧
    signupV1 [{ name := "Bea", email := "a@x.com", role := none }]
      "Ana" "A@X.com" "pw" none ≠ .duplicateEmail ∧
    normalizeEmail "A@X.com" = normalizeEmail "a@x.com" :=
  ⟨rfl, by decide, rfl⟩

/-- C8 amended: the duplicate-email check of both signup variants compares
the raw submitted email, not a normalized one; V1 normalizes (lowercases
and trims) the email only when storing it, so a raw-distinct but
normalized-equal email passes the check and fails on the unique index as
a storage error; V2 stores the raw email unchanged, so such a signup
simply creates a second account. -/
theorem claim_c8_amended (users : List UserDoc) (name email password : String)
    (role : Option String) (hname : name ≠ "") (hemail : email ≠ "")
    (hpw : password ≠ "") :
    (signupV1 users name email password role = .duplicateEmail ↔
      ∃ u ∈ users, u.email = email)
    ∧ ((∀ u ∈ users, u.email ≠ email) → strTrim name ≠ "" →
        ((signupV1 users name email password role = .storageFailure ↔
           ∃ u ∈ users, u.email = normalizeEmail email)
         ∧ (∀ u2, signupV1 users name email password role = .created u2 →
             u2.email = normalizeEmail email ∧ u2.name = strTrim name)))
    ∧ (signupV2 users (some name) email password role = .duplicateEmail ↔
        ∃ u ∈ users, u.email = email)
    ∧ (∀ u2, signupV2 users (some name) email password role = .created u2 →
        u2.email = email) := by
  have h0 : (name == "") = false := beq_eq_false_iff_ne.mpr hname
  have h1 : (email == "") = false := beq_eq_false_iff_ne.mpr hemail
  have h2 : (password == "") = false := beq_eq_false_iff_ne.mpr hpw
  have hdupIff : (users.any (fun u => u.email == email)) = true ↔
      ∃ u ∈ users, u.email = email := by
    rw [List.any_eq_true]
    constructor
    · rintro ⟨u, hu, hb⟩; exact ⟨u, hu, by simpa using hb⟩
    · rintro ⟨u, hu, hb⟩; exact ⟨u, hu, by simpa using hb⟩
  have hnormIff : (users.any (fun u => u.email == normalizeEmail email)) = true ↔
      ∃ u ∈ users, u.email = normalizeEmail email := by
    rw [List.any_eq_true]
    constructor
    · rintro ⟨u, hu, hb⟩; exact ⟨u, hu, by simpa using hb⟩
    · rintro ⟨u, hu, hb⟩; exact ⟨u, hu, by simpa using hb⟩
  refine ⟨?_, ?_, ?_, ?_⟩
  · unfold signupV1
    simp only [h0, h1, h2, Bool.or_self, Bool.or_false, Bool.false_eq_true,
      if_false]
    by_cases hdup : (users.any (fun u => u.email == email)) = true
    · simp [hdup, hdupIff.mp hdup]
    · rw [if_neg hdup]
      constructor
      · intro hcontr
        by_cases h3 : (strTrim name == "" ||
            users.any (fun u => u.email == normalizeEmail email)) = true
        · rw [if_pos h3] at hcontr; cases hcontr
        · rw [if_neg h3] at hcontr; cases hcontr
      · intro hex
        exact absurd (hdupIff.mpr hex) hdup
  · intro hnodup htrim
    have hdup : (users.any (fun u => u.email == email)) = false := by
      rw [Bool.eq_false_iff]
      intro hcontr
      rcases hdupIff.mp hcontr with ⟨u, hu, he⟩
      exact hnodup u hu he
    have htrimb : (strTrim name == "") = false := beq_eq_false_iff_ne.mpr htrim
    unfold signupV1
    simp only [h0, h1, h2, Bool.or_self, Bool.or_false, Bool.false_eq_true,
      if_false, hdup, htrimb, Bool.false_or]
    by_cases hnorm : (users.any (fun u => u.email == normalizeEmail email)) = true
    · rw [if_pos hnorm]
      refine ⟨by simp [hnormIff.mp hnorm], fun u2 hcontr => ?_⟩
      cases hcontr
    · rw [if_neg hnorm]
      refine ⟨?_, fun u2 h => ?_⟩
      · constructor
        · intro hcontr; cases hcontr
        · intro hex; exact absurd (hnormIff.mpr hex) hnorm
      · rw [← SignupResult.created.inj h]
        exact ⟨rfl, rfl⟩
  · unfold signupV2
    simp only [h1, h2, Bool.or_self, Bool.false_eq_true, if_false]
    by_cases hdup : (users.any (fun u => u.email == email)) = true
    · simp [hdup, hdupIff.mp hdup]
    · rw [if_neg hdup]
      constructor
      · intro hcontr; cases hcontr
      · intro hex; exact absurd (hdupIff.mpr hex) hdup
  · intro u2 h
    unfold signupV2 at h
    by_cases hv : (email == "" || password == "") = true
    · rw [if_pos hv] at h; cases h
    · rw [if_neg hv] at h
      by_cases hdup : (users.any (fun u => u.email == email)) = true
      · rw [if_pos hdup] at h; cases h
      · rw [if_neg hdup] at h
        rw [← SignupResult.created.inj h]

/-- C8 witness: claim_c8_amended instantiated at an exact raw duplicate,
projecting the DuplicateEmail equivalence. -/
theorem claim_c8_witness :
    signupV1 [{ name := "Bea", email := "b@x.com", role := none }]
      "Ana" "b@x.com" "pw" none = .duplicateEmail ↔
    ∃ u ∈ [({ name := "Bea", email := "b@x.com", role := none } : UserDoc)],
      u.email = "b@x.com" :=
  (claim_c8_amended [{ name := "Bea", email := "b@x.com", role := none }]
    "Ana" "b@x.com" "pw" none (by decide) (by decide) (by decide)).1

/- ======================================================================
   Claim C10
   ====================================================================== -/

theorem contains_iff (l : List String) (s : String) :
    l.contains s = true ↔ s ∈ l :=
  List.elem_iff

theorem mapIdxFrom_length (f : Nat → α → β) :
    ∀ (l : List α) (j : Nat), (mapIdxFrom j f l).length = l.length := by
  intro l
  induction l with
  | nil => intro j; rfl
  | cons a as ih => intro j; simp [mapIdxFrom, ih (j + 1)]

theorem mapIdxFrom_getElem (f : Nat → α → β) :
    ∀ (l : List α) (j i : Nat),
      (mapIdxFrom j f l)[i]? = l[i]?.map (f (j + i)) := by
  intro l
  induction l with
  | nil => intro j i; simp [mapIdxFrom]
  | cons a as ih =>
    intro j i
    cases i with
    | zero => simp [mapIdxFrom]
    | succ i =>
      simp only [mapIdxFrom, List.getElem?_cons_succ]
      rw [ih (j + 1) i]
      have harith : j + 1 + i = j + (i + 1) := by omega
      rw [harith]

theorem mapIdxFrom_mem (f : Nat → α → β) :
    ∀ (l : List α) (j : Nat) (x : β), x ∈ mapIdxFrom j f l →
      ∃ (i : Nat) (a : α), l[i]? = some a ∧ x = f (j + i) a := by
  intro l
  induction l with
  | nil => intro j x h; simp [mapIdxFrom] at h
  | cons a as ih =>
    intro j x h
    simp only [mapIdxFrom] at h
    rcases List.mem_cons.mp h with rfl | h2
    · exact ⟨0, a, by simp, by simp⟩
    · rcases ih (j + 1) x h2 with ⟨i, b, hb, hx⟩
      refine ⟨i + 1, b, by simpa using hb, ?_⟩
      rw [hx]
      have harith : j + 1 + i = j + (i + 1) := by omega
      rw [harith]

theorem found_length (bank : List BankQuestion) (ids : List String)
    (hnodup : ids.Nodup) (hbank : (bank.map (fun q => q.id)).Nodup)
    (hres : ∀ id ∈ ids, ∃ q ∈ bank, q.id = id) :
    (bank.filter (fun q => ids.contains q.id)).length = ids.length := by
  have hfnd : ((bank.filter (fun q => ids.contains q.id)).map
      (fun q => q.id)).Nodup :=
    List.Nodup.sublist
      (List.Sublist.map _ (List.filter_sublist bank)) hbank
  have hmem : ∀ s, s ∈ (bank.filter (fun q => ids.contains q.id)).map
      (fun q => q.id) ↔ s ∈ ids := by
    intro s
    constructor
    · intro hs
      rcases List.mem_map.mp hs with ⟨q, hq, rfl⟩
      exact (contains_iff ids q.id).mp (List.mem_filter.mp hq).2
    · intro hs
      rcases hres s hs with ⟨q, hq, hqid⟩
      have hqf : q ∈ bank.filter (fun x => ids.contains x.id) :=
        List.mem_filter.mpr ⟨hq, (contains_iff ids q.id).mpr (hqid ▸ hs)⟩
      exact List.mem_map.mpr ⟨q, hqf, hqid⟩
  have hperm := (List.perm_ext_iff_of_nodup hfnd hnodup).mpr hmem
  calc (bank.filter (fun q => ids.contains q.id)).length
      = ((bank.filter (fun q => ids.contains q.id)).map
          (fun q => q.id)).length := (List.length_map _ _).symm
    _ = ids.length := hperm.length_eq

theorem byIdGet_mem (found : List BankQuestion) (id : String)
    (q : BankQuestion) (h : byIdGet found id = some q) : q ∈ found := by
  unfold byIdGet at h
  exact List.mem_reverse.mp (List.mem_of_find?_eq_some h)

theorem byIdGet_eq_find (bank : List BankQuestion) (ids : List String)
    (id : String) (hbank : (bank.map (fun q => q.id)).Nodup) (hid : id ∈ ids)
    (q : BankQuestion) (hq : q ∈ bank) (hqid : q.id = id) :
    byIdGet (bank.filter (fun x => ids.contains x.id)) id = some q ∧
    bank.find? (fun b => b.id == id) = some q := by
  have hinj := List.inj_on_of_nodup_map hbank
  have hqf : q ∈ bank.filter (fun x => ids.contains x.id) :=
    List.mem_filter.mpr ⟨hq, (contains_iff ids q.id).mpr (hqid ▸ hid)⟩
  constructor
  · unfold byIdGet
    cases hr : (bank.filter (fun x => ids.contains x.id)).reverse.find?
        (fun x => x.id == id) with
    | none =>
      exfalso
      exact List.find?_eq_none.mp hr q (List.mem_reverse.mpr hqf)
        (by simpa using hqid)
    | some r =>
      have hrmem : r ∈ bank :=
        (List.mem_filter.mp (List.mem_reverse.mp
          (List.mem_of_find?_eq_some hr))).1
      have hrid : r.id = id := by simpa using List.find?_some hr
      rw [hinj hrmem hq (hrid.trans hqid.symm)]
  · cases hr : bank.find? (fun b => b.id == id) with
    | none =>
      exfalso
      exact List.find?_eq_none.mp hr q hq (by simpa using hqid)
    | some r =>
      have hrmem : r ∈ bank := List.mem_of_find?_eq_some hr
      have hrid : r.id = id := by simpa using List.find?_some hr
      rw [hinj hrmem hq (hrid.trans hqid.symm)]

theorem jsOr_letters (s : String) (hs : s ∈ letters) :
    jsOrStr (some s) "A" = s := by
  have hne : s ≠ "" := by
    rintro rfl
    exact absurd hs (by decide)
  simp [jsOrStr, beq_eq_false_iff_ne.mpr hne]

/-- C10: when every question id resolves against the bank (and the call is
otherwise well formed: distinct ids, at most 50 of them, bank ids unique
as a primary key, bank enum invariant holding), the from-bank builder
succeeds and the produced AnswerKey holds, at each position i, question
number i plus 1 and the resolved bank record correctAnswer when present,
silently defaulting to the letter A when the record has none. -/
theorem claim_c10 (bank : List BankQuestion) (name : String)
    (ids : List String) (hname : name ≠ "") (hne : ids ≠ [])
    (hlen : ids.length ≤ 50) (hnodup : ids.Nodup)
    (hbank : (bank.map (fun q => q.id)).Nodup)
    (hres : ∀ id ∈ ids, ∃ q ∈ bank, q.id = id)
    (henum : bank.all validBankAnswer = true) :
    ∃ ordered answers,
      createAssessmentFromBank bank name (some ids) = .created ordered answers
      ∧ answers.length = ids.length
      ∧ ∀ (i : Nat) (id : String), ids[i]? = some id →
          ∃ item q, answers[i]? = some item
            ∧ bank.find? (fun b => b.id == id) = some q
            ∧ item.questionNumber = (i : Int) + 1
            ∧ item.correctAnswer =
                some (match q.correctAnswer with
                      | some s => s
                      | none => "A") := by
  have h0 : (name == "") = false := beq_eq_false_iff_ne.mpr hname
  have hlz : (ids.length == 0) = false := by
    have : ids.length ≠ 0 := fun hc => hne (List.length_eq_zero.mp hc)
    simpa using this
  have hfl : (bank.filter (fun q => ids.contains q.id)).length = ids.length :=
    found_length bank ids hnodup hbank hres
  have hall : (mapIdxFrom 0 (fun idx id =>
      ({ questionNumber := (idx : Int) + 1,
         correctAnswer := some (jsOrStr ((byIdGet
             (bank.filter (fun q => ids.contains q.id)) id).bind
           (fun q => q.correctAnswer)) "A"),
         subject := some (jsOrStr ((byIdGet
             (bank.filter (fun q => ids.contains q.id)) id).bind
           (fun q => q.subject)) "Assunto") } : KeyItem)) ids).all
        validKeyItem = true := by
    rw [List.all_eq_true]
    intro x hx
    rcases mapIdxFrom_mem _ ids 0 x hx with ⟨i, id, hid, rfl⟩
    cases hv : (byIdGet (bank.filter (fun q => ids.contains q.id)) id).bind
        (fun q => q.correctAnswer) with
    | none => rfl
    | some s =>
      rcases Option.bind_eq_some.mp hv with ⟨q, hq1, hq2⟩
      have hqb : q ∈ bank := (List.mem_filter.mp (byIdGet_mem _ _ _ hq1)).1
      have hvb : validBankAnswer q = true := List.all_eq_true.mp henum q hqb
      unfold validBankAnswer at hvb
      rw [hq2] at hvb
      have hsl : s ∈ letters := by simpa using hvb
      by_cases hse : s = ""
      · subst hse; rfl
      · rw [jsOr_letters s hsl]
        simp only [validKeyItem]
        exact (contains_iff letters s).mpr hsl
  have hcreate : createAssessmentFromBank bank name (some ids) =
      .created
        (mapIdxFrom 0 (fun idx id =>
          ({ number := (idx : Int) + 1,
             subject := some (jsOrStr ((byIdGet
                 (bank.filter (fun q => ids.contains q.id)) id).bind
               (fun q => q.subject)) "Assunto") } : QuestionRef)) ids)
        (mapIdxFrom 0 (fun idx id =>
          ({ questionNumber := (idx : Int) + 1,
             correctAnswer := some (jsOrStr ((byIdGet
                 (bank.filter (fun q => ids.contains q.id)) id).bind
               (fun q => q.correctAnswer)) "A"),
             subject := some (jsOrStr ((byIdGet
                 (bank.filter (fun q => ids.contains q.id)) id).bind
               (fun q => q.subject)) "Assunto") } : KeyItem)) ids) := by
    simp only [createAssessmentFromBank, h0, hlz, Bool.or_self,
      Bool.false_eq_true, if_false]
    rw [if_neg (fun hc => hc hfl)]
    rw [if_neg (by
      have : (ids.length : Int) ≤ 50 := by exact_mod_cast hlen
      omega)]
    rw [if_pos hall]
  refine ⟨_, _, hcreate, ?_, ?_⟩
  · exact mapIdxFrom_length _ ids 0
  · intro i id hid
    have hmem : id ∈ ids := by
      rcases List.getElem?_eq_some.mp hid with ⟨hlt, hEq⟩
      rw [← hEq]
      exact List.getElem_mem hlt
    rcases hres id hmem with ⟨q, hqb, hqid⟩
    have hbi := byIdGet_eq_find bank ids id hbank hmem q hqb hqid
    refine ⟨{ questionNumber := (i : Int) + 1,
              correctAnswer := some (jsOrStr ((byIdGet
                  (bank.filter (fun x => ids.contains x.id)) id).bind
                (fun x => x.correctAnswer)) "A"),
              subject := some (jsOrStr ((byIdGet
                  (bank.filter (fun x => ids.contains x.id)) id).bind
                (fun x => x.subject)) "Assunto") }, q, ?_, hbi.2, rfl, ?_⟩
    · rw [mapIdxFrom_getElem _ ids 0 i, hid]
      simp
    · show some (jsOrStr ((byIdGet
          (bank.filter (fun x => ids.contains x.id)) id).bind
        (fun x => x.correctAnswer)) "A") = _
      rw [hbi.1]
      show some (jsOrStr q.correctAnswer "A") =
        some (match q.correctAnswer with
              | some s => s
              | none => "A")
      cases hqa : q.correctAnswer with
      | none => rfl
      | some s =>
        have hvb : validBankAnswer q = true := List.all_eq_true.mp henum q hqb
        unfold validBankAnswer at hvb
        rw [hqa] at hvb
        have hs : s ∈ letters := by simpa using hvb
        simp [jsOr_letters s hs]

/-- C10 witness: claim_c10 instantiated at a concrete two-question bank in
which one record has a correctAnswer and the other has none. -/
theorem claim_c10_witness :
    ∃ ordered answers,
      createAssessmentFromBank
          [{ id := "x", correctAnswer := some "C", subject := some "Ondas" },
           { id := "y", correctAnswer := none, subject := none }]
          "Prova" (some ["y", "x"]) = .created ordered answers
      ∧ answers.length = (["y", "x"] : List String).length
      ∧ ∀ (i : Nat) (id : String), (["y", "x"] : List String)[i]? = some id →
          ∃ item q, answers[i]? = some item
            ∧ [({ id := "x", correctAnswer := some "C",
                  subject := some "Ondas" } : BankQuestion),
               { id := "y", correctAnswer := none,
                 subject := none }].find? (fun b => b.id == id) = some q
            ∧ item.questionNumber = (i : Int) + 1
            ∧ item.correctAnswer =
                some (match q.correctAnswer with
                      | some s => s
                      | none => "A") :=
  claim_c10
    [{ id := "x", correctAnswer := some "C", subject := some "Ondas" },
     { id := "y", correctAnswer := none, subject := none }]
    "Prova" ["y", "x"] (by decide) (by decide) (by decide) (by decide)
    (by decide) (by decide) (by decide)

end Avaliacoes
